import Mathlib

/-!
Verification of `src/chonkie/refinery/base.py` (class `BaseRefinery`).

The file shallowly embeds the Python module: Python's dynamically typed
values are modelled by the inductive type `PyVal` (a `Chunk` is opaque to
this component beyond the identity check `isinstance(x, Chunk)`, so it is
modelled as a constructor carrying an identifier), and Python exceptions
are modelled with `Except PyError`.  The abstract method `refine` of a
concrete subclass is modelled as a function parameter; the base class's
own method bodies are translated directly.
-/

namespace Chonkie

/-- Dynamically typed Python values, as far as the dispatch logic of
`BaseRefinery.__call__` can distinguish them: a `Chunk` instance, a
`list`, or some non-list value such as a `str` or a number. -/
inductive PyVal : Type where
  | chunk : Nat → PyVal
  | list  : List PyVal → PyVal
  | str   : String → PyVal
  | int   : Int → PyVal
deriving Repr, Inhabited

/-- Python exceptions raised by this module or by a concrete strategy:
`ValueError` (used both for the constructor validation and the dispatch
failure), `NotImplementedError`, and arbitrary other exceptions a concrete
`refine` implementation may raise. -/
inductive PyError : Type where
  | valueError : String → PyError
  | notImplementedError : String → PyError
  | other : String → PyError
deriving Repr, DecidableEq

/-- `isinstance(x, Chunk)`. -/
def PyVal.isChunk : PyVal → Bool
  | .chunk _ => true
  | _ => false

/-- `isinstance(x, list)`. -/
def PyVal.isList : PyVal → Bool
  | .list _ => true
  | _ => false

/-- The elements of a Python list value (undefined, i.e. `[]`, on
non-lists; only ever used after an `isList` check, mirroring the source's
subscripting of values already known to be lists). -/
def PyVal.items : PyVal → List PyVal
  | .list l => l
  | _ => []

/-- A `BaseRefinery` instance: `context_size` is its only attribute,
assigned in `__init__`. -/
structure BaseRefinery : Type where
  context_size : Int
deriving Repr, DecidableEq

/-- `BaseRefinery.__init__` (the Python default for `context_size` is 0):
`if context_size < 0: raise ValueError(...)` then
`self.context_size = context_size`.  Construction of the instance is
modelled as returning the instance record on success. -/
def BaseRefinery.init (context_size : Int) : Except PyError BaseRefinery :=
  if context_size < 0 then
    .error (.valueError "context_size must be non-negative")
  else
    .ok { context_size := context_size }

/-- The body of the abstract method `BaseRefinery.refine`, executed when
the capability is invoked without a concrete override:
`raise NotImplementedError("Refine method must be implemented by subclasses")`. -/
def refine_abstract (_chunks : PyVal) : Except PyError PyVal :=
  .error (.notImplementedError "Refine method must be implemented by subclasses")

/-- The body of the abstract classmethod `BaseRefinery.is_available`,
executed when the capability is invoked without a concrete override:
`return True`. -/
def is_available_abstract : Except PyError Bool :=
  .ok true

/-- `BaseRefinery.refine_batch`, parametrised by the concrete strategy's
`refine`: `return [self.refine(chunks) for chunks in chunks_batch]`.
The comprehension evaluates `refine` left to right and the first exception
raised propagates, aborting the remaining iterations. -/
def refine_batch (refine : PyVal → Except PyError PyVal) :
    List PyVal → Except PyError (List PyVal)
  | [] => .ok []
  | chunks :: rest => do
    let r ← refine chunks
    let rs ← refine_batch refine rest
    pure (r :: rs)

/-- The second dispatch condition of `BaseRefinery.__call__`, applied to
`chunks[0]`:
`isinstance(chunks[0], list) and chunks[0] and isinstance(chunks[0][0], Chunk)`
(a Python list is truthy exactly when it is non-empty). -/
def isChunkListArg (c0 : PyVal) : Bool :=
  c0.isList && !c0.items.isEmpty && (c0.items.headD default).isChunk

/-- `BaseRefinery.__call__`, parametrised by the concrete strategy's
`refine`.  Mirrors the source's dispatch chain:
`if not isinstance(chunks, list) or not chunks: return chunks`;
`if isinstance(chunks[0], Chunk): return self.refine(chunks)`;
`if isinstance(chunks[0], list) and chunks[0] and isinstance(chunks[0][0], Chunk): return self.refine_batch(chunks)`;
`raise ValueError(...)`. -/
def call (refine : PyVal → Except PyError PyVal) (chunks : PyVal) :
    Except PyError PyVal :=
  if !chunks.isList || chunks.items.isEmpty then
    .ok chunks
  else if (chunks.items.headD default).isChunk then
    refine chunks
  else if isChunkListArg (chunks.items.headD default) then
    (refine_batch refine chunks.items).map PyVal.list
  else
    .error (.valueError "Invalid input type for Refinery: must be List[Chunk] or List[List[Chunk]]")

/-- `BaseRefinery.__repr__`:
`return f"{self.__class__.__name__}(context_size={self.context_size})"`,
with the concrete class name passed explicitly. -/
def reprBaseRefinery (className : String) (self : BaseRefinery) : String :=
  className ++ "(context_size=" ++ toString self.context_size ++ ")"

/-- Instrumented model of a concrete strategy's `refine` used for the
frame property: in Python the bound method receives the instance `self`
and could in principle replace its attribute state, so it is modelled as
a state transformer on `BaseRefinery`. -/
def MethodRefine : Type :=
  BaseRefinery → PyVal → Except PyError (PyVal × BaseRefinery)

/-- `BaseRefinery.refine_batch` with the instance state threaded through
the successive `self.refine(chunks)` calls of the comprehension. -/
def refine_batchS (refine : MethodRefine) :
    BaseRefinery → List PyVal → Except PyError (List PyVal × BaseRefinery)
  | self, [] => .ok ([], self)
  | self, chunks :: rest => do
    let (r, self1) ← refine self chunks
    let (rs, self2) ← refine_batchS refine self1 rest
    pure (r :: rs, self2)

/-- `BaseRefinery.__call__` with the instance state threaded through the
delegated calls; the base class's own code reads `chunks` only and never
assigns to `self`. -/
def callS (refine : MethodRefine) (self : BaseRefinery) (chunks : PyVal) :
    Except PyError (PyVal × BaseRefinery) :=
  if !chunks.isList || chunks.items.isEmpty then
    .ok (chunks, self)
  else if (chunks.items.headD default).isChunk then
    refine self chunks
  else if isChunkListArg (chunks.items.headD default) then
    (refine_batchS refine self chunks.items).map (fun p => (PyVal.list p.1, p.2))
  else
    .error (.valueError "Invalid input type for Refinery: must be List[Chunk] or List[List[Chunk]]")

/-- Example concrete strategy: the identity refinement, which returns its
input unchanged.  Used to instantiate the theorems below. -/
def refineOk : PyVal → Except PyError PyVal := fun v => .ok v

/-- Example concrete strategy: always raises.  Used to instantiate the
theorems below. -/
def refineBoom : PyVal → Except PyError PyVal := fun _ => .error (.other "boom")

/-- Example concrete strategy: returns a fixed value.  Used to
instantiate the theorems below. -/
def refineConst7 : PyVal → Except PyError PyVal := fun _ => .ok (.int 7)

/-- Example concrete strategy: raises exactly on the document
`[Chunk 1]` and succeeds elsewhere.  Used to instantiate the theorems
below. -/
def refineBoomOnDoc2 : PyVal → Except PyError PyVal := fun v =>
  match v with
  | .list [.chunk 1] => .error (.other "boom on doc 2")
  | w => .ok w

/-- Example concrete strategy: like `refineBoomOnDoc2` but behaves
differently on the document `[Chunk 2]`.  Used to show that documents
after a failing one are never consulted. -/
def refineBoomOnDoc2Alt : PyVal → Except PyError PyVal := fun v =>
  match v with
  | .list [.chunk 1] => .error (.other "boom on doc 2")
  | .list [.chunk 2] => .ok (.int 99)
  | w => .ok w

/-- Example instrumented strategy: returns its input and leaves the
instance untouched.  Used to instantiate the frame theorem below. -/
def refineKeep : MethodRefine := fun s c => .ok (c, s)

/-! ### Helper lemmas -/

/-- Reduction of `Except` bind on an exception. -/
theorem error_bind {α β : Type} (e : PyError) (g : α → Except PyError β) :
    (Except.error e >>= g : Except PyError β) = Except.error e := rfl

/-- Reduction of `Except` bind on a success. -/
theorem ok_bind {α β : Type} (a : α) (g : α → Except PyError β) :
    (Except.ok a >>= g : Except PyError β) = g a := rfl

/-- When the first element of the argument list is a `Chunk`, `__call__`
takes the `refine` branch, passing the whole list through. -/
theorem call_chunk_branch (f : PyVal → Except PyError PyVal) (c : PyVal)
    (rest : List PyVal) (hc : c.isChunk = true) :
    call f (.list (c :: rest)) = f (.list (c :: rest)) := by
  simp [call, PyVal.isList, PyVal.items, hc]

/-- When the first element of the argument list is a non-empty list whose
first element is a `Chunk`, `__call__` takes the `refine_batch` branch,
passing the whole outer list through. -/
theorem call_batch_branch (f : PyVal → Except PyError PyVal) (d : PyVal)
    (ds rest : List PyVal) (hd : d.isChunk = true) :
    call f (.list (.list (d :: ds) :: rest)) =
      (refine_batch f (.list (d :: ds) :: rest)).map PyVal.list := by
  have h1 : (PyVal.list (d :: ds)).isChunk = false := rfl
  simp [call, PyVal.isList, PyVal.items, isChunkListArg, h1, hd]

/-- A successful `refine_batch` result has the length of the batch and
holds, position by position, the value `refine` returned for the
corresponding element. -/
theorem refine_batch_ok_spec (f : PyVal → Except PyError PyVal) :
    ∀ (b rs : List PyVal), refine_batch f b = .ok rs →
      rs.length = b.length ∧
      ∀ i, i < b.length → f (b.getD i default) = .ok (rs.getD i default)
  | [], rs, h => by
      simp only [refine_batch] at h
      cases h
      simp
  | x :: xs, rs, h => by
      simp only [refine_batch] at h
      cases hx : f x with
      | error e => rw [hx, error_bind] at h; exact absurd h (by simp)
      | ok r =>
        rw [hx, ok_bind] at h
        cases hxs : refine_batch f xs with
        | error e => rw [hxs, error_bind] at h; exact absurd h (by simp)
        | ok rs0 =>
          rw [hxs, ok_bind] at h
          have hrs : rs = r :: rs0 := by
            cases h
            rfl
          subst hrs
          obtain ⟨hlen, helem⟩ := refine_batch_ok_spec f xs rs0 hxs
          refine ⟨by simp [hlen], ?_⟩
          intro i hi
          cases i with
          | zero => simpa using hx
          | succ j =>
            simp only [List.getD_cons_succ]
            exact helem j (by simpa using hi)

/-- If `refine` succeeds on every element before some failing element,
`refine_batch` returns exactly that element's exception, whatever comes
after it in the batch. -/
theorem refine_batch_append_error (f : PyVal → Except PyError PyVal) (e : PyError) :
    ∀ (pre : List PyVal) (x : PyVal) (post : List PyVal),
      (∀ y ∈ pre, (f y).isOk = true) → f x = .error e →
      refine_batch f (pre ++ x :: post) = .error e
  | [], x, post, _, hx => by
      simp only [List.nil_append, refine_batch]
      rw [hx, error_bind]
  | y :: pre, x, post, hpre, hx => by
      have hy := hpre y (List.mem_cons_self y pre)
      cases hy' : f y with
      | error e2 => rw [hy'] at hy; exact absurd hy (by simp [Except.isOk, Except.toBool])
      | ok r =>
        have ih := refine_batch_append_error f e pre x post
          (fun z hz => hpre z (List.mem_cons_of_mem y hz)) hx
        simp only [List.cons_append, refine_batch]
        rw [hy', ok_bind, List.append_eq, ih, error_bind]

/-- If the strategy's `refine` never changes `context_size`, neither does
`refine_batch`. -/
theorem refine_batchS_preserves (refine : MethodRefine)
    (hpres : ∀ s c p, refine s c = .ok p → p.2.context_size = s.context_size) :
    ∀ (b : List PyVal) (self : BaseRefinery) (rs : List PyVal) (self1 : BaseRefinery),
      refine_batchS refine self b = .ok (rs, self1) →
      self1.context_size = self.context_size
  | [], self, rs, self1, h => by
      simp only [refine_batchS] at h
      cases h
      rfl
  | chunks :: rest, self, rs, self1, h => by
      simp only [refine_batchS] at h
      cases hx : refine self chunks with
      | error e => rw [hx, error_bind] at h; exact absurd h (by simp)
      | ok p =>
        rw [hx, ok_bind] at h
        cases hxs : refine_batchS refine p.2 rest with
        | error e => rw [hxs, error_bind] at h; exact absurd h (by simp)
        | ok q =>
          rw [hxs, ok_bind] at h
          have hq : q.2 = self1 := by
            cases h
            rfl
          have ih := refine_batchS_preserves refine hpres rest p.2 q.1 q.2 (by
            rw [hxs])
          rw [hq] at ih
          rw [ih, hpres self chunks p hx]

/-- If the strategy's `refine` never changes `context_size`, neither does
`__call__`. -/
theorem callS_preserves (refine : MethodRefine)
    (hpres : ∀ s c p, refine s c = .ok p → p.2.context_size = s.context_size)
    (self : BaseRefinery) (v r : PyVal) (self2 : BaseRefinery)
    (h : callS refine self v = .ok (r, self2)) :
    self2.context_size = self.context_size := by
  unfold callS at h
  split at h
  · cases h
    rfl
  · split at h
    · exact hpres self v (r, self2) h
    · split at h
      · cases hb : refine_batchS refine self v.items with
        | error e => rw [hb] at h; exact absurd h (by simp [Except.map])
        | ok q =>
          obtain ⟨qs, qself⟩ := q
          rw [hb] at h
          simp only [Except.map] at h
          have hq : qself = self2 := by
            cases h
            rfl
          rw [← hq]
          exact refine_batchS_preserves refine hpres v.items self qs qself hb
      · exact absurd h (by simp)

/-! ### Claims -/

/-- C1: on a non-empty batch whose first inner list starts with a Chunk,
`__call__` returns the same result as calling `refine_batch` directly on
that batch (re-embedded as a Python list value), and `refine_batch`
equals the comprehension `[refine(seq) for seq in batch]`: on success the
outer result has the batch's length and, at every position, holds exactly
the value `refine` returned for the corresponding inner sequence. -/
theorem call_batch_matches_refine_batch (f : PyVal → Except PyError PyVal)
    (b b2 rs : List PyVal) (d : PyVal) (ds rest : List PyVal) (i : Nat)
    (hb : b = PyVal.list (d :: ds) :: rest) (hd : d.isChunk = true)
    (hok : refine_batch f b2 = .ok rs) (hi : i < b2.length) :
    call f (.list b) = (refine_batch f b).map PyVal.list ∧
    rs.length = b2.length ∧
    f (b2.getD i default) = .ok (rs.getD i default) := by
  subst hb
  refine ⟨call_batch_branch f d ds rest hd, ?_, ?_⟩
  · exact (refine_batch_ok_spec f b2 rs hok).1
  · exact (refine_batch_ok_spec f b2 rs hok).2 i hi

/-- Witness for C1, at the batch `[[Chunk 0]]` with the identity
strategy. -/
theorem call_batch_matches_refine_batch_witness :
    call refineOk (.list [.list [.chunk 0]]) =
      (refine_batch refineOk [.list [.chunk 0]]).map PyVal.list ∧
    ([PyVal.list [.chunk 0]] : List PyVal).length =
      ([PyVal.list [.chunk 0]] : List PyVal).length ∧
    refineOk (([PyVal.list [.chunk 0]] : List PyVal).getD 0 default) =
      .ok (([PyVal.list [.chunk 0]] : List PyVal).getD 0 default) :=
  call_batch_matches_refine_batch refineOk [.list [.chunk 0]] [.list [.chunk 0]]
    [.list [.chunk 0]] (.chunk 0) [] [] 0 rfl rfl rfl (by decide)

/-- C2: on a non-empty list whose first element is a Chunk, `__call__`
returns exactly the result of calling `refine` on that list. -/
theorem call_single_matches_refine (f : PyVal → Except PyError PyVal)
    (c : PyVal) (rest : List PyVal) (hc : c.isChunk = true) :
    call f (.list (c :: rest)) = f (.list (c :: rest)) :=
  call_chunk_branch f c rest hc

/-- Witness for C2, at the list `[Chunk 2]` with a constant strategy,
showing the entry point returns the strategy's own result. -/
theorem call_single_matches_refine_witness :
    call refineConst7 (.list [.chunk 2]) = refineConst7 (.list [.chunk 2]) :=
  call_single_matches_refine refineConst7 (.chunk 2) [] rfl

/-- C3: on a non-empty list whose first element is neither a Chunk nor a
non-empty list starting with a Chunk, `__call__` raises
`ValueError("Invalid input type for Refinery: must be List[Chunk] or List[List[Chunk]]")`. -/
theorem call_invalid_input_raises (f : PyVal → Except PyError PyVal)
    (c0 : PyVal) (rest : List PyVal)
    (h1 : c0.isChunk = false) (h2 : isChunkListArg c0 = false) :
    call f (.list (c0 :: rest)) =
      .error (.valueError "Invalid input type for Refinery: must be List[Chunk] or List[List[Chunk]]") := by
  simp [call, PyVal.isList, PyVal.items, h1, h2]

/-- Witness for C3, at the documented edge case where the first element
is an empty inner list. -/
theorem call_invalid_input_raises_witness :
    call refineOk (.list [.list []]) =
      .error (.valueError "Invalid input type for Refinery: must be List[Chunk] or List[List[Chunk]]") :=
  call_invalid_input_raises refineOk (.list []) [] rfl rfl

/-- C4: on any non-list input and on the empty list, `__call__` returns
its input unchanged with no error; the result does not depend on the
strategy's `refine` at all (so neither `refine` nor `refine_batch` is
consulted). -/
theorem call_passthrough (f g : PyVal → Except PyError PyVal) (chunks : PyVal)
    (h : chunks.isList = false ∨ chunks = .list []) :
    call f chunks = .ok chunks ∧ call f chunks = call g chunks := by
  rcases h with h | h
  · constructor <;> simp [call, h]
  · subst h
    constructor <;> rfl

/-- Witness for C4, at a string input and at the empty list, with an
always-raising strategy (whose exception is indeed never raised). -/
theorem call_passthrough_witness :
    (call refineBoom (.str "hello") = .ok (.str "hello") ∧
      call refineBoom (.str "hello") = call refineOk (.str "hello")) ∧
    (call refineBoom (.list []) = .ok (.list []) ∧
      call refineBoom (.list []) = call refineOk (.list [])) :=
  ⟨call_passthrough refineBoom refineOk (.str "hello") (Or.inl rfl),
   call_passthrough refineBoom refineOk (.list []) (Or.inr rfl)⟩

/-- C5: construction succeeds exactly on non-negative `context_size`:
for `0 ≤ n` the instance is produced with `context_size = n`, and for
`n < 0` construction raises
`ValueError("context_size must be non-negative")` and no instance is
produced. -/
theorem init_validates_context_size (n : Int) :
    (0 ≤ n → BaseRefinery.init n = .ok { context_size := n }) ∧
    (n < 0 → BaseRefinery.init n = .error (.valueError "context_size must be non-negative")) := by
  constructor
  · intro h
    simp [BaseRefinery.init, not_lt.mpr h]
  · intro h
    simp [BaseRefinery.init, h]

/-- Witness for C5, at `context_size = 3` and `context_size = -1`. -/
theorem init_validates_context_size_witness :
    BaseRefinery.init 3 = .ok { context_size := 3 } ∧
    BaseRefinery.init (-1) = .error (.valueError "context_size must be non-negative") :=
  ⟨(init_validates_context_size 3).1 (by decide),
   (init_validates_context_size (-1)).2 (by decide)⟩

/-- C6: if `refine` succeeds on every document before the k-th and raises
on the k-th, `refine_batch` propagates exactly that exception: the
result is the bare error (earlier documents' results are discarded), and
any strategy agreeing with the first up to the k-th document — however it
behaves on later documents — produces the same bare error, so documents
after the k-th are never consulted. -/
theorem refine_batch_propagates_error (f g : PyVal → Except PyError PyVal)
    (pre post : List PyVal) (x : PyVal) (e : PyError)
    (hok : ∀ y ∈ pre, (f y).isOk = true)
    (hagree : ∀ y ∈ pre, g y = f y) (hgx : g x = f x)
    (herr : f x = .error e) :
    refine_batch f (pre ++ x :: post) = .error e ∧
    refine_batch g (pre ++ x :: post) = .error e := by
  constructor
  · exact refine_batch_append_error f e pre x post hok herr
  · refine refine_batch_append_error g e pre x post ?_ ?_
    · intro y hy
      rw [hagree y hy]
      exact hok y hy
    · rw [hgx]
      exact herr

/-- Witness for C6: a three-document batch whose second document makes
the strategy raise; a variant strategy that differs on the third document
yields the identical bare error. -/
theorem refine_batch_propagates_error_witness :
    refine_batch refineBoomOnDoc2
        ([PyVal.list [.chunk 0]] ++ PyVal.list [.chunk 1] :: [PyVal.list [.chunk 2]]) =
      .error (.other "boom on doc 2") ∧
    refine_batch refineBoomOnDoc2Alt
        ([PyVal.list [.chunk 0]] ++ PyVal.list [.chunk 1] :: [PyVal.list [.chunk 2]]) =
      .error (.other "boom on doc 2") :=
  refine_batch_propagates_error refineBoomOnDoc2 refineBoomOnDoc2Alt
    [PyVal.list [.chunk 0]] [PyVal.list [.chunk 2]] (PyVal.list [.chunk 1])
    (.other "boom on doc 2")
    (fun y hy => by rw [List.mem_singleton] at hy; subst hy; rfl)
    (fun y hy => by rw [List.mem_singleton] at hy; subst hy; rfl)
    rfl rfl

/-- C7: `refine_batch` on the empty batch returns the empty batch for
every strategy, in particular without invoking `refine` (the result is
the same even for a strategy that always raises). -/
theorem refine_batch_empty (f : PyVal → Except PyError PyVal) :
    refine_batch f [] = .ok [] :=
  rfl

/-- Counterexample for C8: invoking the abstract `is_available` body
without a concrete override does not raise — it returns `True`. -/
theorem is_available_default_returns_true :
    is_available_abstract = .ok true ∧ is_available_abstract.isOk = true :=
  ⟨rfl, rfl⟩

/-- C8 (amended): invoking the abstract `refine` capability without a
concrete override raises
`NotImplementedError("Refine method must be implemented by subclasses")`;
invoking the abstract `is_available` capability without a concrete
override returns `True` and raises nothing. -/
theorem abstract_capability_behavior (chunks : PyVal) :
    refine_abstract chunks =
      .error (.notImplementedError "Refine method must be implemented by subclasses") ∧
    is_available_abstract = .ok true :=
  ⟨rfl, rfl⟩

/-- C9: `context_size` is the instance's only attribute (see the record
type), the base class's own code never assigns to it after `__init__`
(the representation is a pure read), and provided the concrete strategy's
`refine` leaves it unchanged, both `refine_batch` and `__call__` leave it
exactly as constructed. -/
theorem context_size_immutable (refine : MethodRefine)
    (self self1 self2 : BaseRefinery) (b rs : List PyVal) (v r : PyVal)
    (hpres : ∀ s c p, refine s c = .ok p → p.2.context_size = s.context_size)
    (h1 : refine_batchS refine self b = .ok (rs, self1))
    (h2 : callS refine self v = .ok (r, self2)) :
    self1.context_size = self.context_size ∧
    self2.context_size = self.context_size :=
  ⟨refine_batchS_preserves refine hpres b self rs self1 h1,
   callS_preserves refine hpres self v r self2 h2⟩

/-- Witness for C9: an instance with `context_size = 5`, a
state-preserving identity strategy, a one-document batch and a
single-sequence call. -/
theorem context_size_immutable_witness :
    (BaseRefinery.mk 5).context_size = (BaseRefinery.mk 5).context_size ∧
    (BaseRefinery.mk 5).context_size = (BaseRefinery.mk 5).context_size :=
  context_size_immutable refineKeep ⟨5⟩ ⟨5⟩ ⟨5⟩ [.list [.chunk 0]]
    [.list [.chunk 0]] (.list [.chunk 3]) (.list [.chunk 3])
    (fun s c p h => by cases h; rfl) rfl rfl

/-- C10: dispatch looks only at the first element (and, for the batch
shape, at the first element of that first inner list): with a Chunk
first, the whole list goes to `refine` whatever the remaining elements
are, and with a non-empty Chunk-headed inner list first, the whole outer
list goes to `refine_batch` whatever the remaining outer elements are —
no element beyond the first is validated. -/
theorem call_checks_first_element_only (f : PyVal → Except PyError PyVal)
    (c d : PyVal) (ds rest rest2 : List PyVal)
    (hc : c.isChunk = true) (hd : d.isChunk = true) :
    call f (.list (c :: rest)) = f (.list (c :: rest)) ∧
    call f (.list (.list (d :: ds) :: rest2)) =
      (refine_batch f (.list (d :: ds) :: rest2)).map PyVal.list :=
  ⟨call_chunk_branch f c rest hc, call_batch_branch f d ds rest2 hd⟩

/-- Witness for C10: the tails hold strings and numbers — values that are
neither Chunks nor Chunk lists — and dispatch still delegates on the
strength of the first element alone. -/
theorem call_checks_first_element_only_witness :
    call refineOk (.list (PyVal.chunk 0 :: [PyVal.str "not a chunk", PyVal.int 3])) =
      refineOk (.list (PyVal.chunk 0 :: [PyVal.str "not a chunk", PyVal.int 3])) ∧
    call refineOk (.list (PyVal.list (PyVal.chunk 1 :: [PyVal.str "junk"]) :: [PyVal.int 9])) =
      (refine_batch refineOk (PyVal.list (PyVal.chunk 1 :: [PyVal.str "junk"]) :: [PyVal.int 9])).map PyVal.list :=
  call_checks_first_element_only refineOk (.chunk 0) (.chunk 1) [PyVal.str "junk"]
    [PyVal.str "not a chunk", PyVal.int 3] [PyVal.int 9] rfl rfl

end Chonkie
